import Mathlib

/-!
Shallow embedding of `activetable/activetable.py` (the ActiveTable XBlock).

The module under verification is `src/activetable/activetable.py`.  Its
collaborators `activetable/cells.py` and `activetable/parsers.py` are imported
by the source but are not part of the source tree; wherever one of their
functions is needed it is modelled from the spec and marked as such in its doc
comment.  Machine floats are modelled as rationals; Python runtime errors
(`TypeError`, `KeyError`, ...) are modelled with an explicit error type, and a
handler that mutates the object and then raises is modelled as returning both
the mutated state and the error.
-/

namespace ActiveTable

/-- Python runtime errors that the embedded code can raise. -/
inductive PyErr where
  | typeError
  | keyError
  | valueError
  | zeroDivisionError
  | attributeError
  | indexError
deriving DecidableEq

/-- A Python literal stored in a static cell (int, float or string). -/
inductive PyLit where
  | int (n : ℤ)
  | float (q : ℚ)
  | str (s : String)
deriving DecidableEq

/-- The tagged cell variant built by the table parsing stage: a display-only
static cell, a free-text response cell with its accepted answers, or a numeric
response cell with an optional explicit absolute tolerance.
(`cells.py` is not in the source tree; the variant follows the spec.) -/
inductive CellKind where
  | static (value : PyLit)
  | text (accepted_answers : List String)
  | numeric (answer : ℚ) (abs_tolerance : Option ℚ)
deriving DecidableEq

/-- A cell as produced by the structural parsing stage: its kind plus its
0-based column index. -/
structure Cell where
  kind : CellKind
  index : ℕ
deriving DecidableEq

/-- `cell.is_static`: only static cells are display-only. -/
def Cell.is_static (c : Cell) : Bool :=
  match c.kind with
  | .static _ => true
  | _ => false

/-- A row dict of the parsed table body: `{'index': ..., 'cells': [...]}`. -/
structure RowD where
  index : ℤ
  cells : List Cell
deriving DecidableEq

/-- Python's notion of whitespace for `str.strip`. -/
def isPySpace (c : Char) : Bool :=
  c = ' ' || c = '\t' || c = '\n' || c = '\r' || c = '\x0b' || c = '\x0c'

/-- Python `str.strip()`: remove leading and trailing whitespace. -/
def pyStrip (s : String) : String :=
  ⟨((s.data.dropWhile isPySpace).reverse.dropWhile isPySpace).reverse⟩

/-- Lower-case an ASCII character (Python `str.lower` on the inputs in play). -/
def pyCharLower (c : Char) : Char :=
  if 'A' ≤ c ∧ c ≤ 'Z' then Char.ofNat (c.toNat + 32) else c

/-- Python `str.lower()` (restricted to ASCII case folding). -/
def pyLower (s : String) : String :=
  ⟨s.data.map pyCharLower⟩

/-- Python `int(s)`: optional surrounding whitespace, an optional sign, and a
nonempty run of decimal digits; anything else raises `ValueError` (`none`). -/
def pyInt? (s : String) : Option ℤ :=
  let core (ds : List Char) : Option ℤ :=
    if ds ≠ [] ∧ ds.all Char.isDigit then
      some ((ds.foldl (fun n c => n * 10 + (c.toNat - '0'.toNat)) (0 : ℕ) : ℕ) : ℤ)
    else none
  match (pyStrip s).data with
  | '-' :: ds => (core ds).map Neg.neg
  | '+' :: ds => core ds
  | ds => core ds

/-- Modelled from the spec: Python `float(submitted)` for the numeric check in
the missing `cells.py` — parse an optional sign, digits and an optional
fractional part into a rational; any other shape fails. -/
def parseFloat (s : String) : Option ℚ :=
  let core (ds : List Char) : Option ℚ :=
    let intPart := ds.takeWhile Char.isDigit
    let rest := ds.dropWhile Char.isDigit
    let frac :=
      match rest with
      | '.' :: fs => if fs.all Char.isDigit then some fs else none
      | [] => some []
      | _ => none
    match frac with
    | none => none
    | some fs =>
        if intPart.isEmpty ∧ fs.isEmpty then none
        else
          let iv : ℕ := intPart.foldl (fun n c => n * 10 + (c.toNat - '0'.toNat)) 0
          let fv : ℕ := fs.foldl (fun n c => n * 10 + (c.toNat - '0'.toNat)) 0
          some ((iv : ℚ) + (fv : ℚ) / ((10 : ℚ) ^ fs.length))
  match (pyStrip s).data with
  | '-' :: ds => (core ds).map Neg.neg
  | '+' :: ds => core ds
  | ds => core ds

/-- An augmented cell, after `postprocess_table` has attached `id`, `classes`,
the student's submitted `value` and (for response cells) the height. -/
structure AugCell where
  kind : CellKind
  index : ℕ
  id : String
  classes : String
  value : Option String
  height : Option ℚ
deriving DecidableEq

/-- An augmented row: the row dict after `postprocess_table` added the
`height` and `class` entries. -/
structure AugRow where
  index : ℤ
  height : ℚ
  rclass : String
  cells : List AugCell
deriving DecidableEq

/-- Modelled from the spec: `check_response` of the missing `cells.py`.
Text: the trimmed submission matches an accepted answer case-insensitively.
Numeric: the submission parses as a float within the absolute tolerance
(inclusive at the boundary); unparsable input is incorrect.  Static cells are
never queried.  (A numeric cell without a tolerance is unreachable here
because augmentation always installs one.) -/
def AugCell.check_response (c : AugCell) (submitted : String) : Bool :=
  match c.kind with
  | .static _ => false
  | .text accepted => accepted.any (fun a => pyLower a == pyLower (pyStrip submitted))
  | .numeric answer tol =>
      match parseFloat submitted, tol with
      | some v, some t => |v - answer| ≤ t
      | _, _ => false

/-- The submitted answers: a dict mapping cell ids to raw strings. -/
abbrev AnswerData := List (String × String)

/-- Python `dict.get` on an association list. -/
def alookup {α : Type} (l : List (String × α)) (k : String) : Option α :=
  (l.find? (fun p => p.1 == k)).map Prod.snd

/-- Map a fallible function over a list, stopping at the first error (the
effect of a Python comprehension whose body can raise). -/
def exMapM {α β : Type} (f : α → Except PyErr β) : List α → Except PyErr (List β)
  | [] => .ok []
  | a :: rest =>
      match f a with
      | .error e => .error e
      | .ok b =>
          match exMapM f rest with
          | .error e => .error e
          | .ok bs => .ok (b :: bs)

/-- The per-cell body of the augmentation loop in `postprocess_table`:
assign `cell.id`, `cell.classes`, and for response cells the submitted value,
the cell height, and the defaulted tolerance for numeric cells that have
none (`cell.set_tolerance(self.default_tolerance)`, modelled from the spec as
`abs_tolerance = |answer| * default_tolerance / 100`). -/
def augment_cell (rowIndex : ℤ) (answers : AnswerData) (default_tolerance : ℚ)
    (height : ℚ) (c : Cell) : AugCell :=
  let cid := "cell_" ++ toString rowIndex ++ "_" ++ toString c.index
  if c.is_static then
    { kind := c.kind, index := c.index, id := cid, classes := "",
      value := none, height := none }
  else
    let kind :=
      match c.kind with
      | .numeric answer none => .numeric answer (some (|answer| * default_tolerance / 100))
      | k => k
    { kind := kind, index := c.index, id := cid, classes := "active",
      value := alookup answers cid, height := some (height - 2) }

/-- The per-row body of the loop in `postprocess_table`: set the row height,
the parity class (`'even'` when `index % 2` is truthy), and augment the cells
of `zip(row.cells, thead)`. -/
def augment_row (thead : List String) (answers : AnswerData)
    (default_tolerance : ℚ) (row : RowD) (height : ℚ) : AugRow :=
  { index := row.index, height := height,
    rclass := if row.index % 2 ≠ 0 then "even" else "odd",
    cells := (row.cells.zip thead).map
      (fun cp => augment_cell row.index answers default_tolerance height cp.1) }

/-- `postprocess_table`: walk `zip(tbody, row_heights[1:])` augmenting each
row, and collect the non-static cells into the `response_cells` index keyed
by cell id. -/
def postprocess_table (tbody : List RowD) (rowHeights : List ℚ)
    (thead : List String) (answers : AnswerData) (default_tolerance : ℚ) :
    List AugRow × List (String × AugCell) :=
  let rows := (tbody.zip rowHeights.tail).map
    (fun p => augment_row thead answers default_tolerance p.1 p.2)
  let rcells := rows.flatMap (fun ar =>
    ar.cells.filterMap (fun c =>
      match c.kind with
      | .static _ => none
      | _ => some (c.id, c)))
  (rows, rcells)

/-- A per-cell grading outcome: a boolean in `scorable` / `no_right_answer`
mode, or the raw submitted string in `unique_option` mode. -/
inductive Outcome where
  | bool (b : Bool)
  | str (s : String)
deriving DecidableEq

/-- An entry of the user-state `additional_rows` list:
`{"index": ..., "new_column_value": ..., "save": ...}`. -/
structure ARow where
  index : ℤ
  new_column_value : ℤ
  save : Bool
deriving DecidableEq

/-- The possible values of the `answers_correct` user-state field: Python
`None`, a dict of per-cell outcomes, or — down the attempt-exhausted path of
`check_answers` — the whole status dict returned by `check_and_save_answers`. -/
inductive ACVal where
  | none
  | map (m : List (String × Outcome))
  | statusDict (answers_correct : ACVal) (num_correct_answers : Option ℤ)
      (num_total_answers : Option ℕ) (score : Option ℚ) (maximum_score : ℚ)
      (attempts : ℤ) (max_attempts : Option ℤ) (answers : AnswerData)
deriving DecidableEq

/-- The status dictionary built by `get_status`. -/
structure Status where
  answers_correct : ACVal
  num_correct_answers : Option ℤ
  num_total_answers : Option ℕ
  score : Option ℚ
  maximum_score : ℚ
  attempts : ℤ
  max_attempts : Option ℤ
  answers : AnswerData
deriving DecidableEq

/-- The status dict viewed as a value assignable to `answers_correct`. -/
def Status.toVal (st : Status) : ACVal :=
  .statusDict st.answers_correct st.num_correct_answers st.num_total_answers
    st.score st.maximum_score st.attempts st.max_attempts st.answers

/-- Python `sum` over the values of an outcome dict: booleans add as 0/1; a
string value makes the addition raise `TypeError`. -/
def sumOutcomes : List (String × Outcome) → Except PyErr ℤ
  | [] => .ok 0
  | (_, .bool b) :: rest => (sumOutcomes rest).map (fun r => (if b then 1 else 0) + r)
  | (_, .str _) :: _ => .error .typeError

/-- The `num_correct_answers` property: `None` when `answers_correct` is
`None`, otherwise `sum(self.answers_correct.itervalues())`.  Summing the
status dict always raises `TypeError` because its values include the
`answers` dict (and possibly `None`s). -/
def ACVal.num_correct_answers : ACVal → Except PyErr (Option ℤ)
  | .none => .ok Option.none
  | .map m => (sumOutcomes m).map some
  | .statusDict .. => .error .typeError

/-- `len(self.answers_correct)`: `len(None)` raises `TypeError`; the status
dict has 8 keys. -/
def ACVal.pyLen : ACVal → Except PyErr ℕ
  | .none => .error .typeError
  | .map m => .ok m.length
  | .statusDict .. => .ok 8

/-- The `num_total_answers` property. -/
def ACVal.num_total_answers : ACVal → Option ℕ
  | .none => Option.none
  | .map m => some m.length
  | .statusDict .. => some 8

/-- The persisted fields of `ActiveTableXBlock` (content/settings and user
state).  `content`, `column_widths` and `row_heights` hold the result of
parsing the corresponding text field; the parsing functions live in the
missing `parsers.py`, so the fields are modelled as already-parsed data,
with `none` for an unset field. -/
structure XState where
  content : Option (List String × List RowD)
  column_widths : Option (List ℚ) := Option.none
  row_heights : Option (List ℚ) := Option.none
  default_tolerance : ℚ := 1
  maximum_score : ℚ := 1
  max_attempts : Option ℤ := Option.none
  score_type : String := "scorable"
  extendable : Bool := false
  answers : AnswerData := []
  answers_correct : ACVal := .none
  score : Option ℚ := Option.none
  attempts : ℤ := 0
  additional_rows : List ARow := []
deriving DecidableEq

/-- `if self.max_attempts and self.attempts >= self.max_attempts`: `None` and
`0` are falsy. -/
def attempts_exhausted (s : XState) : Bool :=
  match s.max_attempts with
  | some m => if m = 0 then false else decide (s.attempts ≥ m)
  | Option.none => false

/-- `get_status`: build the status dict.  Evaluating `num_correct_answers`
can raise when `answers_correct` holds non-boolean values. -/
def get_status (s : XState) : Except PyErr Status := do
  let nc ← s.answers_correct.num_correct_answers
  .ok { answers_correct := s.answers_correct, num_correct_answers := nc,
        num_total_answers := s.answers_correct.num_total_answers,
        score := s.score, maximum_score := s.maximum_score,
        attempts := s.attempts, max_attempts := s.max_attempts,
        answers := s.answers }

/-- The transient attributes set on the object by `parse_fields` during one
request.  For `thead`/`tbody`, `none` models the attribute holding Python
`None` (the empty-content early return); for `column_widths`/`row_heights`,
`none` models the attribute never having been assigned. -/
structure Trans where
  thead : Option (List String)
  tbody : Option (List RowD)
  column_widths : Option (List ℚ)
  row_heights : Option (List ℚ)

/-- The transient attributes when `parse_fields` has not run. -/
def Trans.empty : Trans := ⟨Option.none, Option.none, Option.none, Option.none⟩

/-- `process_additional_rows`: materialize each entry of `additional_rows`
as a row of the same width as the last parsed row — a static first cell
holding `new_column_value` and empty text cells for the other columns
(`TextCell("")`, modelled from the spec).  `self.tbody[-1]` on an empty body
raises `IndexError`. -/
def process_additional_rows (tbody : List RowD) (additional : List ARow) :
    Except PyErr (List RowD) :=
  match tbody.getLast? with
  | Option.none => .error .indexError
  | some last =>
      .ok (additional.map (fun row =>
        { index := row.index,
          cells := (List.range last.cells.length).map (fun idx =>
            if idx = 0 then
              { kind := .static (.int row.new_column_value), index := idx }
            else
              { kind := .text [""], index := idx }) }))

/-- `parse_fields`: parse the content into `thead`/`tbody` (extended with the
additional rows when extendable), then fill in the column widths (equal
division of 800 pixels when unset — `ZeroDivisionError` on an empty header
row) and the row heights (36 pixels per row when unset).  Returns the
transient attributes as assigned so far together with the outcome. -/
def parse_fields (s : XState) : Trans × Except PyErr Unit :=
  match s.content with
  | Option.none => (Trans.empty, .ok ())
  | some (th, tb0) =>
      match (if s.extendable then
              (process_additional_rows tb0 s.additional_rows).map (tb0 ++ ·)
             else .ok tb0) with
      | .error e =>
          ({ thead := some th, tbody := some tb0,
             column_widths := Option.none, row_heights := Option.none }, .error e)
      | .ok tb =>
          match (match s.column_widths with
                 | some w => Except.ok w
                 | Option.none =>
                     if th.length = 0 then Except.error PyErr.zeroDivisionError
                     else Except.ok (List.replicate th.length ((800 : ℚ) / th.length))) with
          | .error e =>
              ({ thead := some th, tbody := some tb,
                 column_widths := Option.none, row_heights := Option.none }, .error e)
          | .ok cw =>
              let rh := match s.row_heights with
                | some h => h
                | Option.none => List.replicate (tb.length + 1) (36 : ℚ)
              ({ thead := some th, tbody := some tb,
                 column_widths := some cw, row_heights := some rh }, .ok ())

/-- Run `postprocess_table` against the transient attributes: reading an
unassigned `_row_heights` raises `AttributeError`; iterating a `None` body or
header raises `TypeError`. -/
def run_postprocess (s : XState) (t : Trans) :
    Except PyErr (List AugRow × List (String × AugCell)) :=
  match t.row_heights with
  | Option.none => .error .attributeError
  | some rh =>
      match t.tbody, t.thead with
      | some tb, some th =>
          .ok (postprocess_table tb rh th s.answers s.default_tolerance)
      | _, _ => .error .typeError

/-- `check_responses`: completion booleans in `no_right_answer` mode, the raw
submitted values in `unique_option` mode, and `check_response` against the
response-cell index otherwise (an unknown cell id raises `KeyError`). -/
def check_responses (score_type : String)
    (response_cells : List (String × AugCell)) (data : AnswerData) :
    Except PyErr (List (String × Outcome)) :=
  if score_type = "no_right_answer" then
    .ok (data.map (fun p => (p.1, Outcome.bool (decide (p.2 ≠ "")))))
  else if score_type = "unique_option" then
    .ok (data.map (fun p => (p.1, Outcome.str p.2)))
  else
    exMapM (fun p =>
      match alookup response_cells p.1 with
      | Option.none => Except.error PyErr.keyError
      | some c => Except.ok (p.1, Outcome.bool (c.check_response p.2))) data

/-- `cell_id[len("cell_"):-len("_{}".format(index_column))]`: strip the fixed
prefix and the column suffix from a cell id to recover the row-index text. -/
def decode_row_id (cid : String) (colIndex : ℕ) : String :=
  (cid.drop "cell_".length).dropRight ("_" ++ toString colIndex).length

/-- The inner loop of `save_filled_additional_rows`: mark the first
additional row whose index equals `int(decoded)` as saved.  `int()` of a
non-numeric string raises `ValueError` (evaluated only while scanning). -/
def save_one (rows : List ARow) (decoded : String) : Except PyErr (List ARow) :=
  match rows with
  | [] => .ok []
  | r :: rest =>
      match pyInt? decoded with
      | Option.none => .error .valueError
      | some ri =>
          if r.index = ri then .ok ({ r with save := true } :: rest)
          else (save_one rest decoded).map (r :: ·)

/-- The loop of `save_filled_additional_rows` over the submitted dict: look
each cell id up in `response_cells` (a missing id raises `KeyError`), decode
its row index, and for non-empty values mark the matching additional row
saved.  Rows mutated before an error keep their mutation. -/
def save_filled_loop (response_cells : List (String × AugCell)) :
    AnswerData → List ARow → List ARow × Except PyErr Unit
  | [], rows => (rows, .ok ())
  | (cid, v) :: rest, rows =>
      match alookup response_cells cid with
      | Option.none => (rows, .error .keyError)
      | some c =>
          let decoded := decode_row_id cid c.index
          if v ≠ "" then
            match save_one rows decoded with
            | .error e => (rows, .error e)
            | .ok rows' => save_filled_loop response_cells rest rows'
          else save_filled_loop response_cells rest rows

/-- `save_filled_additional_rows`. -/
def save_filled_additional_rows (response_cells : List (String × AugCell))
    (rows : List ARow) (data : AnswerData) : List ARow × Except PyErr Unit :=
  save_filled_loop response_cells data rows

/-- `remove_unsaved_rows`: iterate over a copy of `additional_rows` and
`list.remove` every row whose `save` flag is falsy. -/
def remove_unsaved_rows (rows : List ARow) : List ARow :=
  rows.foldl (fun acc row => if row.save then acc else acc.erase row) rows

/-- `check_and_save_answers`: short-circuit with the current status when the
attempts are exhausted; otherwise parse and augment, mark filled additional
rows when extendable, grade the submission, and store it in `answers`.
Returns the (possibly mutated) state, the transient attributes, and either
the raised error or the value the caller assigns to `answers_correct`. -/
def check_and_save_answers (s : XState) (data : AnswerData) :
    XState × Trans × Except PyErr ACVal :=
  if attempts_exhausted s then
    match get_status s with
    | .error e => (s, Trans.empty, .error e)
    | .ok st => (s, Trans.empty, .ok st.toVal)
  else
    match parse_fields s with
    | (t, .error e) => (s, t, .error e)
    | (t, .ok ()) =>
        match run_postprocess s t with
        | .error e => (s, t, .error e)
        | .ok (_, rcells) =>
            let step : XState × Except PyErr Unit :=
              if s.extendable then
                let pr := save_filled_additional_rows rcells s.additional_rows data
                ({ s with additional_rows := pr.1 }, pr.2)
              else (s, .ok ())
            match step with
            | (s1, .error e) => (s1, t, .error e)
            | (s1, .ok ()) =>
                match check_responses s1.score_type rcells data with
                | .error e => (s1, t, .error e)
                | .ok outcomes => ({ s1 with answers := data }, t, .ok (.map outcomes))

/-- The score expression
`self.num_correct_answers * self.maximum_score / len(self.answers_correct)`:
`None * float` and `len(None)` raise `TypeError`; an empty dict raises
`ZeroDivisionError`. -/
def score_expr (ac : ACVal) (maximum_score : ℚ) : Except PyErr ℚ := do
  match (← ac.num_correct_answers) with
  | Option.none => .error .typeError
  | some n =>
      let l ← ac.pyLen
      if l = 0 then .error .zeroDivisionError
      else .ok ((n : ℚ) * maximum_score / (l : ℚ))

/-- The tail common to both submission handlers: `api.create_submission`
(an external collaborator with no XBlock state effect) followed by returning
`get_status()`. -/
def submit_and_status (s : XState) : XState × Except PyErr Status :=
  match get_status s with
  | .error e => (s, .error e)
  | .ok st => (s, .ok st)

/-- The `check_answers` handler: store the result of
`check_and_save_answers` in `answers_correct`, increment `attempts`, compute
the score, publish the grade, and return the status.  A raise after a field
assignment leaves the assignment in place. -/
def check_answers (s : XState) (data : AnswerData) : XState × Except PyErr Status :=
  match check_and_save_answers s data with
  | (s1, _, .error e) => (s1, .error e)
  | (s1, _, .ok ac) =>
      let s2 := { s1 with answers_correct := ac, attempts := s1.attempts + 1 }
      match score_expr ac s2.maximum_score with
      | .error e => (s2, .error e)
      | .ok sc => submit_and_status { s2 with score := some sc }

/-- The `save_answers` handler: store the outcomes, then in
`no_right_answer` mode score exactly as `check_answers` does; in
`unique_option` mode score with `self.tbody[-1].get("index")` as the
denominator; in every other mode reset `answers_correct` to `None`. -/
def save_answers (s : XState) (data : AnswerData) : XState × Except PyErr Status :=
  match check_and_save_answers s data with
  | (s1, _, .error e) => (s1, .error e)
  | (s1, t, .ok ac) =>
      let s2 := { s1 with answers_correct := ac }
      if s2.score_type = "no_right_answer" then
        match score_expr ac s2.maximum_score with
        | .error e => (s2, .error e)
        | .ok sc => submit_and_status { s2 with score := some sc }
      else if s2.score_type = "unique_option" then
        match ac.num_correct_answers with
        | .error e => (s2, .error e)
        | .ok Option.none => (s2, .error .typeError)
        | .ok (some n) =>
            match t.tbody with
            | Option.none => (s2, .error .attributeError)
            | some tb =>
                match tb.getLast? with
                | Option.none => (s2, .error .indexError)
                | some last =>
                    if last.index = 0 then (s2, .error .zeroDivisionError)
                    else
                      let sc : ℚ := (n : ℚ) * s2.maximum_score / (last.index : ℚ)
                      submit_and_status { s2 with score := some sc }
      else
        submit_and_status { s2 with answers_correct := ACVal.none }

/-- `_add_row`: read the last row of the parsed (and extension-augmented)
body; when its first cell is a static cell holding an int, seed the new row
with that value plus one; a response first cell has no `value` attribute
before augmentation, so the `AttributeError` handler falls back to the row
index.  A non-int seed source reaches `len(self.body)`, and the object has no
attribute `body` — `AttributeError`. -/
def _add_row (s : XState) : XState × Except PyErr Unit :=
  match parse_fields s with
  | (_, .error e) => (s, .error e)
  | (t, .ok ()) =>
      match t.tbody with
      | Option.none => (s, .error .typeError)
      | some tb =>
          match tb.getLast? with
          | Option.none => (s, .error .indexError)
          | some last =>
              if last.cells.length = 0 then (s, .ok ())
              else
                let previous : PyLit :=
                  match last.cells.head? with
                  | some c =>
                      match c.kind with
                      | .static v => v
                      | _ => .int last.index
                  | Option.none => .int last.index
                match previous with
                | .int n =>
                    ({ s with additional_rows := s.additional_rows ++
                        [{ index := last.index + 1, new_column_value := n + 1,
                           save := false }] }, .ok ())
                | _ => (s, .error .attributeError)

/-- A cell of the flattened PDF data produced by `parse_to_pdf` (which lives
in the missing `parsers.py`): modelled from the spec as either a display
string or, in `unique_option` mode, a boolean submitted value. -/
inductive PCell where
  | bool (b : Bool)
  | str (s : String)
deriving DecidableEq

/-- `generate_pdf_data`: in `unique_option` mode a true boolean renders as
`"X"`, a false one as the empty string, and anything else as its text; in the
other modes every cell is passed to `Paragraph` directly, which requires
text (a boolean there is modelled as an error). -/
def generate_pdf_data (score_type : String) (data : List (List PCell)) :
    Except PyErr (List (List String)) :=
  if score_type = "unique_option" then
    .ok (data.map (fun row => row.map (fun c =>
      match c with
      | .bool true => "X"
      | .bool false => ""
      | .str s => s)))
  else
    exMapM (fun row => exMapM (fun c =>
      match c with
      | .str s => Except.ok s
      | .bool _ => Except.error PyErr.attributeError) row) data

/-- Count the non-overlapping occurrences of `pat` scanning left to right
(Python `str.count`), fuelled structurally by the text length. -/
def countOccGo (pat : List Char) : ℕ → List Char → ℕ
  | 0, _ => 0
  | _, [] => 0
  | fuel + 1, c :: rest =>
      if pat.isPrefixOf (c :: rest) then
        1 + countOccGo pat fuel (rest.drop (pat.length - 1))
      else countOccGo pat fuel rest

/-- Python `haystack.count(needle)` for a nonempty needle. -/
def countOcc (pat s : String) : ℕ :=
  countOccGo pat.data s.data.length s.data

/-- The validation message for a column-widths length mismatch. -/
def col_widths_msg : String :=
  "The number of list entries in the Column widths field must match the number of columns in the table."

/-- The validation message for a row-heights length mismatch. -/
def row_heights_msg : String :=
  "The number of list entries in the Row heights field must match the number of rows in the table."

/-- The validation message for a custom-header snippet without exactly one
table pair. -/
def table_msg : String := "Headers must be defined inside a unique table"

/-- The validation message for a custom-header snippet without exactly one
thead pair. -/
def thead_msg : String := "Headers must be defined inside a unique <thead></thead> label"

/-- `validate_field_data`, modelled as a function of the parse results
(`parse_table` and `parse_number_list` live in the missing `parsers.py`; a
`none` argument models an unset or empty field, which is falsy).  Mirrors the
control flow exactly, including the `elif` that suppresses the thead check
when the table check fails. -/
def validate_field_data
    (content_result : Except String (List String × List RowD))
    (column_widths : Option (Except String (List ℚ)))
    (row_heights : Option (Except String (List ℚ)))
    (custom_headers : Bool) (headers_style : String) : List String :=
  let (errs1, thead?, tbody?) :=
    match content_result with
    | .ok (th, tb) => (([] : List String), some th, some tb)
    | .error m => (["Problem with table definition: " ++ m], Option.none, Option.none)
  let errs2 :=
    match column_widths with
    | Option.none => []
    | some (.error m) => ["Problem with column widths: " ++ m]
    | some (.ok ws) =>
        match thead? with
        | some th => if ws.length ≠ th.length then [col_widths_msg] else []
        | Option.none => []
  let errs3 :=
    match row_heights with
    | Option.none => []
    | some (.error m) => ["Problem with row heights: " ++ m]
    | some (.ok hs) =>
        match tbody? with
        | some tb => if hs.length ≠ tb.length + 1 then [row_heights_msg] else []
        | Option.none => []
  let errs4 :=
    if custom_headers then
      if countOcc "table" headers_style ≠ 2 then [table_msg]
      else if countOcc "thead" headers_style ≠ 2 then [thead_msg]
      else []
    else []
  errs1 ++ errs2 ++ errs3 ++ errs4

/-! ## Theorems about the claims -/

/-- C6.  For every Numeric response cell processed by `postprocess_table`,
the tolerance after augmentation is the author's explicit tolerance when one
was given (including `0.0`), and otherwise the default-derived absolute
tolerance `|answer| * default_tolerance / 100`. -/
theorem numeric_tolerance_defaulting (tbody : List RowD) (rh : List ℚ)
    (thead : List String) (answers : AnswerData) (dt : ℚ) (i j : ℕ)
    (ans : ℚ) (tol : Option ℚ)
    (hi : i < (postprocess_table tbody rh thead answers dt).1.length)
    (hit : i < tbody.length)
    (hj : j < ((postprocess_table tbody rh thead answers dt).1.get ⟨i, hi⟩).cells.length)
    (hjt : j < (tbody.get ⟨i, hit⟩).cells.length)
    (hk : ((tbody.get ⟨i, hit⟩).cells.get ⟨j, hjt⟩).kind = .numeric ans tol) :
    (((postprocess_table tbody rh thead answers dt).1.get ⟨i, hi⟩).cells.get ⟨j, hj⟩).kind
      = .numeric ans (some (tol.getD (|ans| * dt / 100))) := by
  simp only [postprocess_table, augment_row, List.get_eq_getElem, List.getElem_map,
    List.getElem_zip] at hk ⊢
  rw [augment_cell]
  have hstat : (tbody[i].cells[j]).is_static = false := by
    simp [Cell.is_static, hk]
  rw [hstat]
  simp only [Bool.false_eq_true, if_false]
  cases tol <;> simp [hk]

/-- The table body used in the concrete witnesses below: one row holding a
single numeric response cell with no explicit tolerance. -/
def witness_tbody : List RowD := [⟨1, [⟨.numeric 5 Option.none, 0⟩]⟩]

/-- Witness for C6 at a concrete grid: the tolerance of the lone numeric
cell is defaulted. -/
theorem numeric_tolerance_defaulting_witness :
    0 < (postprocess_table witness_tbody [36, 36] ["H"] [] 2).1.length ∧
    0 < witness_tbody.length ∧
    0 < ((postprocess_table witness_tbody [36, 36] ["H"] [] 2).1[0]).cells.length ∧
    0 < (witness_tbody[0]).cells.length ∧
    ((witness_tbody[0]).cells[0]).kind = .numeric 5 Option.none ∧
    (((postprocess_table witness_tbody [36, 36] ["H"] [] 2).1[0]).cells[0]).kind
      = .numeric 5 (some ((Option.none).getD (|(5 : ℚ)| * 2 / 100))) :=
  ⟨by decide, by decide, by decide, by decide, by decide,
    numeric_tolerance_defaulting witness_tbody [36, 36] ["H"] [] 2 0 0 5 Option.none
      (by decide) (by decide) (by decide) (by decide) (by decide)⟩

/-- C10.  For every row processed by `postprocess_table`, the parity class is
`"even"` when the row's index is odd and `"odd"` when it is even — inverted
with respect to the arithmetic parity of the index. -/
theorem row_parity_class_inverted (tbody : List RowD) (rh : List ℚ)
    (thead : List String) (answers : AnswerData) (dt : ℚ) (i : ℕ)
    (hi : i < (postprocess_table tbody rh thead answers dt).1.length)
    (hit : i < tbody.length) :
    ((tbody.get ⟨i, hit⟩).index % 2 = 1 →
      ((postprocess_table tbody rh thead answers dt).1.get ⟨i, hi⟩).rclass = "even") ∧
    ((tbody.get ⟨i, hit⟩).index % 2 = 0 →
      ((postprocess_table tbody rh thead answers dt).1.get ⟨i, hi⟩).rclass = "odd") := by
  simp only [postprocess_table, augment_row, List.get_eq_getElem, List.getElem_map,
    List.getElem_zip] at hi ⊢
  constructor
  · intro h
    simp only [h]
    norm_num
  · intro h
    simp only [h]
    norm_num

/-- Witness for C10 at a concrete grid: the row with index 1 gets class
`"even"`. -/
theorem row_parity_class_inverted_witness :
    0 < (postprocess_table witness_tbody [36, 36] ["H"] [] 2).1.length ∧
    0 < witness_tbody.length ∧
    ((witness_tbody[0]).index % 2 = 1 →
      ((postprocess_table witness_tbody [36, 36] ["H"] [] 2).1[0]).rclass = "even") ∧
    ((witness_tbody[0]).index % 2 = 0 →
      ((postprocess_table witness_tbody [36, 36] ["H"] [] 2).1[0]).rclass = "odd") :=
  ⟨by decide, by decide,
    (row_parity_class_inverted witness_tbody [36, 36] ["H"] [] 2 0
      (by decide) (by decide)).1,
    (row_parity_class_inverted witness_tbody [36, 36] ["H"] [] 2 0
      (by decide) (by decide)).2⟩

/-- A state whose attempts are exhausted: `max_attempts = 1` and one attempt
used, with a previously recorded boolean outcome map, score and answers. -/
def c1_state : XState :=
  { content := some (["H1", "H2"], [⟨1, [⟨.static (.str "x"), 0⟩, ⟨.text ["a"], 1⟩]⟩]),
    column_widths := some [400, 400],
    max_attempts := some 1, attempts := 1,
    answers_correct := .map [("cell_1_1", .bool true)],
    score := some 1, answers := [("cell_1_1", "a")] }

/-- C1 (evaluation at the failing input).  With attempts exhausted, the
`check_answers` handler does not return the previous status unchanged:
`check_and_save_answers` short-circuits with the status dict, but the handler
then stores that dict in `answers_correct`, increments `attempts`, and raises
`TypeError` while computing the score — so `attempts` and `answers_correct`
do not keep their prior values and no status is returned. -/
theorem check_answers_exhausted_mutates_state :
    attempts_exhausted c1_state = true ∧
    (check_answers c1_state [("cell_1_1", "b")]).2 = .error .typeError ∧
    (check_answers c1_state [("cell_1_1", "b")]).1.attempts = c1_state.attempts + 1 ∧
    (check_answers c1_state [("cell_1_1", "b")]).1.answers_correct ≠ c1_state.answers_correct := by
  refine ⟨by decide, rfl, by decide, by decide⟩

/-- A `unique_option` state with a three-row grid (each row a static cell
followed by a text response cell). -/
def c2_state : XState :=
  { content := some (["H1", "H2"],
      [⟨1, [⟨.static (.int 1), 0⟩, ⟨.text ["a"], 1⟩]⟩,
       ⟨2, [⟨.static (.int 2), 0⟩, ⟨.text ["b"], 1⟩]⟩,
       ⟨3, [⟨.static (.int 3), 0⟩, ⟨.text ["c"], 1⟩]⟩]),
    column_widths := some [400, 400],
    score_type := "unique_option" }

/-- C2 (evaluation at the failing input).  In `unique_option` mode the
per-cell outcomes are indeed the raw submitted strings, but the aggregate
score is computed by summing those raw values (`num_correct_answers`), which
raises `TypeError` for any non-empty submission — the promised
`(count of non-empty submissions / last row index) * maximum_score` is never
produced and no score is recorded. -/
theorem save_answers_unique_option_sums_raw_strings :
    (save_answers c2_state [("cell_1_1", "a"), ("cell_2_1", "b")]).1.answers_correct
      = .map [("cell_1_1", .str "a"), ("cell_2_1", .str "b")] ∧
    (save_answers c2_state [("cell_1_1", "a"), ("cell_2_1", "b")]).2 = .error .typeError ∧
    (save_answers c2_state [("cell_1_1", "a"), ("cell_2_1", "b")]).1.score = c2_state.score := by
  refine ⟨by decide, rfl, by decide⟩

/-- A grid whose last row's first cell is a static cell holding a string. -/
def c4_str_state : XState :=
  { content := some (["H1", "H2"], [⟨1, [⟨.static (.str "abc"), 0⟩, ⟨.text ["x"], 1⟩]⟩]),
    column_widths := some [400, 400] }

/-- The same grid but with a static integer in the last row's first cell. -/
def c4_int_state : XState :=
  { content := some (["H1", "H2"], [⟨1, [⟨.static (.int 42), 0⟩, ⟨.text ["x"], 1⟩]⟩]),
    column_widths := some [400, 400] }

/-- C4 (evaluation at the failing input).  When the last row's first cell
holds an integer, `_add_row` appends the pending row with index + 1, seed
value + 1 and `save = False` as claimed; but when that cell holds any
non-integer value (here a string), the fallback branch evaluates
`len(self.body)` — an attribute that does not exist — and raises
`AttributeError` instead of appending a row seeded with the row count + 1. -/
theorem add_row_nonnumeric_seed_attribute_error :
    (_add_row c4_int_state).2 = .ok () ∧
    (_add_row c4_int_state).1.additional_rows
      = [{ index := 2, new_column_value := 43, save := false }] ∧
    (_add_row c4_str_state).2 = .error .attributeError ∧
    (_add_row c4_str_state).1 = c4_str_state := by
  refine ⟨rfl, by decide, rfl, by decide⟩

/-- Extracting the text of a row of string-only PDF cells never fails and
returns the row itself. -/
lemma pdf_extract_strings (row : List String) :
    exMapM (fun c => match c with
      | .str s => Except.ok s
      | .bool _ => Except.error PyErr.attributeError) (row.map PCell.str)
      = Except.ok row := by
  induction row with
  | nil => rfl
  | cons a rest ih => simp [exMapM, ih]

/-- C9.  Flattening graded PDF data: in `unique_option` mode a true boolean
cell renders as `"X"`, a false one as the empty string, and a string cell as
its literal text; in any other mode every (string) cell renders its literal
text value. -/
theorem generate_pdf_data_rendering (data : List (List PCell))
    (sdata : List (List String)) (st : String) (h : st ≠ "unique_option") :
    generate_pdf_data "unique_option" data
      = .ok (data.map (fun row => row.map (fun c =>
          match c with
          | .bool true => "X"
          | .bool false => ""
          | .str s => s))) ∧
    generate_pdf_data st (sdata.map (fun row => row.map PCell.str)) = .ok sdata := by
  constructor
  · simp [generate_pdf_data]
  · simp only [generate_pdf_data, if_neg h]
    induction sdata with
    | nil => rfl
    | cons r rest ih => simp [exMapM, pdf_extract_strings, ih] at ih ⊢

/-- Witness for C9 at concrete data in both modes. -/
theorem generate_pdf_data_rendering_witness :
    ("scorable" : String) ≠ "unique_option" ∧
    generate_pdf_data "unique_option" [[.bool true, .bool false, .str "v"]]
      = .ok ([[.bool true, .bool false, .str "v"]].map (fun row => row.map (fun c =>
          match c with
          | PCell.bool true => "X"
          | PCell.bool false => ""
          | PCell.str s => s))) ∧
    generate_pdf_data "scorable" ([["a", "b"]].map (fun row => row.map PCell.str))
      = .ok [["a", "b"]] :=
  ⟨by decide,
    (generate_pdf_data_rendering [[.bool true, .bool false, .str "v"]] [["a", "b"]]
      "scorable" (by decide)).1,
    (generate_pdf_data_rendering [[.bool true, .bool false, .str "v"]] [["a", "b"]]
      "scorable" (by decide)).2⟩

/-- C7 (counterexample).  An input that fails the width, height, table and
thead checks at once produces only three messages: the thead message is
suppressed by the `elif`, so not every failing check contributes a message. -/
theorem validate_thead_suppressed_counterexample :
    countOcc "table" "x" ≠ 2 ∧ countOcc "thead" "x" ≠ 2 ∧
    validate_field_data (.ok (["A"], [])) (some (.ok [1, 2])) (some (.ok [1, 2])) true "x"
      = [col_widths_msg, row_heights_msg, table_msg] ∧
    thead_msg ∉ validate_field_data (.ok (["A"], [])) (some (.ok [1, 2])) (some (.ok [1, 2]))
      true "x" := by
  refine ⟨by decide, by decide, by decide, by decide⟩

/-- C7 (amended).  The width-list and height-list checks each contribute
their own message independently; among the custom-header checks the table
message is reported whenever the table count is wrong, and the thead message
only when the table count is right and the thead count wrong. -/
theorem validate_messages_collected
    (th : List String) (tb : List RowD) (ws hs : List ℚ) (hstyle hstyle2 : String)
    (hw : ws.length ≠ th.length) (hh : hs.length ≠ tb.length + 1)
    (htable : countOcc "table" hstyle ≠ 2)
    (htable2 : countOcc "table" hstyle2 = 2) (hthead2 : countOcc "thead" hstyle2 ≠ 2) :
    validate_field_data (.ok (th, tb)) (some (.ok ws)) (some (.ok hs)) true hstyle
      = [col_widths_msg, row_heights_msg, table_msg] ∧
    validate_field_data (.ok (th, tb)) (some (.ok ws)) (some (.ok hs)) true hstyle2
      = [col_widths_msg, row_heights_msg, thead_msg] := by
  constructor
  · simp [validate_field_data, hw, hh, htable]
  · simp [validate_field_data, hw, hh, htable2, hthead2]

/-- Witness for the amended C7 at concrete field data. -/
theorem validate_messages_collected_witness :
    ([(1 : ℚ), 2].length ≠ ["A"].length) ∧
    ([(1 : ℚ), 2].length ≠ ([] : List RowD).length + 1) ∧
    countOcc "table" "x" ≠ 2 ∧
    countOcc "table" "<table>x</table>" = 2 ∧
    countOcc "thead" "<table>x</table>" ≠ 2 ∧
    validate_field_data (.ok (["A"], [])) (some (.ok [1, 2])) (some (.ok [1, 2])) true "x"
      = [col_widths_msg, row_heights_msg, table_msg] ∧
    validate_field_data (.ok (["A"], [])) (some (.ok [1, 2])) (some (.ok [1, 2])) true
      "<table>x</table>"
      = [col_widths_msg, row_heights_msg, thead_msg] :=
  ⟨by decide, by decide, by decide, by decide, by decide,
    (validate_messages_collected ["A"] [] [1, 2] [1, 2] "x"
      "<table>x</table>" (by decide) (by decide) (by decide) (by decide)
      (by decide)).1,
    (validate_messages_collected ["A"] [] [1, 2] [1, 2] "x"
      "<table>x</table>" (by decide) (by decide) (by decide) (by decide)
      (by decide)).2⟩


/-- The response-cell index that one request computes for a state, when
parsing and augmentation succeed. -/
def response_cells_of (s : XState) : Option (List (String × AugCell)) :=
  match parse_fields s with
  | (t, .ok ()) =>
      match run_postprocess s t with
      | .ok pr => some pr.2
      | .error _ => Option.none
  | (_, .error _) => Option.none

/-- The number of per-cell outcomes that are `True`. -/
def countTrueOutcomes (m : List (String × Outcome)) : ℕ :=
  m.countP (fun p => p.2 == Outcome.bool true)

/-- The score formula shared by `check_answers` and the `no_right_answer`
branch of `save_answers`:
`(count of true outcomes / count of submitted entries) * maximum_score`. -/
def scorable_score_formula (m : List (String × Outcome)) (maxScore : ℚ) : ℚ :=
  ((countTrueOutcomes m : ℤ) : ℚ) * maxScore / (m.length : ℚ)

lemma sumOutcomes_of_all_bool (m : List (String × Outcome))
    (h : ∀ p ∈ m, ∃ b, p.2 = Outcome.bool b) :
    sumOutcomes m = .ok ((countTrueOutcomes m : ℤ)) := by
  induction m with
  | nil => rfl
  | cons p rest ih =>
      obtain ⟨b, hb⟩ := h p (List.mem_cons_self p rest)
      have hrest := ih (fun q hq => h q (List.mem_cons_of_mem p hq))
      obtain ⟨s, o⟩ := p
      simp only at hb
      subst hb
      simp only [sumOutcomes, hrest, countTrueOutcomes, List.countP_cons, Except.map]
      cases b
      · simp
      · simp
        ring

lemma score_expr_of_boolmap (m : List (String × Outcome)) (maxScore : ℚ)
    (h : ∀ p ∈ m, ∃ b, p.2 = Outcome.bool b) (hne : m.length ≠ 0) :
    score_expr (.map m) maxScore = .ok (scorable_score_formula m maxScore) := by
  simp [score_expr, ACVal.num_correct_answers, sumOutcomes_of_all_bool m h, Except.map,
    ACVal.pyLen, hne, scorable_score_formula, Bind.bind, Except.bind]

lemma check_and_save_ok (s : XState) (data : AnswerData)
    (rcells : List (String × AugCell)) (outs : List (String × Outcome))
    (hex : attempts_exhausted s = false)
    (hrc : response_cells_of s = some rcells)
    (hextend : s.extendable = false)
    (hresp : check_responses s.score_type rcells data = .ok outs) :
    check_and_save_answers s data
      = ({ s with answers := data }, (parse_fields s).1, .ok (.map outs)) := by
  unfold check_and_save_answers
  rw [hex]
  simp only [Bool.false_eq_true, if_false]
  unfold response_cells_of at hrc
  rcases hp : parse_fields s with ⟨t, r⟩
  rw [hp] at hrc
  cases r with
  | error e => simp at hrc
  | ok u =>
      cases u
      simp only at hrc
      cases hq : run_postprocess s t with
      | error e => rw [hq] at hrc; simp at hrc
      | ok pr =>
          obtain ⟨rows, rc⟩ := pr
          rw [hq] at hrc
          simp only [Option.some.injEq] at hrc
          subst hrc
          simp only [hextend, Bool.false_eq_true, if_false] at hresp ⊢
          rw [hq]
          simp only [hresp]


/-- The per-cell outcome the scorable branch of `check_responses` records for
one submitted entry (total version, defined when the id is present). -/
def scorable_outcome (rcells : List (String × AugCell)) (p : String × String) : Outcome :=
  match alookup rcells p.1 with
  | some c => Outcome.bool (c.check_response p.2)
  | Option.none => Outcome.bool false

lemma submit_and_status_fst (st : XState) : (submit_and_status st).1 = st := by
  unfold submit_and_status
  cases get_status st <;> rfl

lemma exMapM_scorable (rcells : List (String × AugCell)) (data : AnswerData)
    (h : ∀ p ∈ data, (alookup rcells p.1).isSome) :
    exMapM (fun p =>
      match alookup rcells p.1 with
      | Option.none => Except.error PyErr.keyError
      | some c => Except.ok (p.1, Outcome.bool (c.check_response p.2))) data
      = .ok (data.map (fun p => (p.1, scorable_outcome rcells p))) := by
  induction data with
  | nil => rfl
  | cons p rest ih =>
      have hp := h p (List.mem_cons_self p rest)
      have hrest := ih (fun q hq => h q (List.mem_cons_of_mem p hq))
      cases hl : alookup rcells p.1 with
      | none => rw [hl] at hp; simp at hp
      | some c =>
          simp only [exMapM, hl, hrest, List.map_cons, scorable_outcome]

lemma check_responses_scorable (rcells : List (String × AugCell)) (data : AnswerData)
    (h : ∀ p ∈ data, (alookup rcells p.1).isSome) :
    check_responses "scorable" rcells data
      = .ok (data.map (fun p => (p.1, scorable_outcome rcells p))) := by
  unfold check_responses
  norm_num
  exact exMapM_scorable rcells data h

/-- C3 (amended).  In scorable mode the aggregate score computed by
`check_answers` is `(count of true outcomes / count of submitted entries) *
maximum_score` — the denominator is `len(answers_correct)`, i.e. the number
of submitted entries, which equals the response-cell count only when the
submission covers every response cell. -/
theorem check_answers_scorable_uses_submitted_count
    (s : XState) (data : AnswerData) (rcells : List (String × AugCell))
    (hmode : s.score_type = "scorable")
    (hex : attempts_exhausted s = false)
    (hrc : response_cells_of s = some rcells)
    (hextend : s.extendable = false)
    (hne : data ≠ [])
    (hkeys : ∀ p ∈ data, (alookup rcells p.1).isSome) :
    (check_answers s data).1.answers_correct
      = .map (data.map (fun p => (p.1, scorable_outcome rcells p))) ∧
    (check_answers s data).1.score
      = some (scorable_score_formula
          (data.map (fun p => (p.1, scorable_outcome rcells p))) s.maximum_score) := by
  have hresp : check_responses s.score_type rcells data
      = .ok (data.map (fun p => (p.1, scorable_outcome rcells p))) := by
    rw [hmode]; exact check_responses_scorable rcells data hkeys
  have hcs := check_and_save_ok s data rcells _ hex hrc hextend hresp
  have hall : ∀ p ∈ data.map (fun p => (p.1, scorable_outcome rcells p)),
      ∃ b, p.2 = Outcome.bool b := by
    intro p hp
    simp only [List.mem_map] at hp
    obtain ⟨q, hq, rfl⟩ := hp
    unfold scorable_outcome
    cases alookup rcells q.1 <;> exact ⟨_, rfl⟩
  have hlen : (data.map (fun p => (p.1, scorable_outcome rcells p))).length ≠ 0 := by
    simp [List.length_map]
    intro hcon
    exact hne hcon
  have hscore := score_expr_of_boolmap _ s.maximum_score hall hlen
  unfold check_answers
  rw [hcs]
  simp only
  rw [hscore]
  rw [submit_and_status_fst]
  exact ⟨rfl, rfl⟩


lemma remove_loop_count_saved (r : ARow) (hr : r.save = true) :
    ∀ (todo acc : List ARow),
      (todo.foldl (fun acc row => if row.save then acc else acc.erase row) acc).count r
        = acc.count r := by
  intro todo
  induction todo with
  | nil => intro acc; rfl
  | cons row rest ih =>
      intro acc
      simp only [List.foldl_cons]
      cases hrow : row.save with
      | true => simp only [if_pos rfl]; exact ih acc
      | false =>
          simp only [Bool.false_eq_true, if_false]
          rw [ih (acc.erase row)]
          exact List.count_erase_of_ne (by intro h; rw [h, hrow] at hr; exact Bool.noConfusion hr) acc

lemma remove_loop_count_unsaved (r : ARow) (hr : r.save = false) :
    ∀ (todo acc : List ARow),
      (todo.foldl (fun acc row => if row.save then acc else acc.erase row) acc).count r
        = acc.count r - todo.count r := by
  intro todo
  induction todo with
  | nil => intro acc; simp
  | cons row rest ih =>
      intro acc
      simp only [List.foldl_cons]
      by_cases hrr : row = r
      · subst hrr
        rw [hr]
        simp only [Bool.false_eq_true, if_false]
        rw [ih (acc.erase row), List.count_erase_self, List.count_cons_self]
        omega
      · have hcount : (row :: rest).count r = rest.count r := by
          have h1 : ¬(r = row) := fun h => hrr h.symm
          simp [List.count_cons, hrr, h1]
        rw [hcount]
        cases hrow : row.save with
        | true => simp only [if_pos rfl]; exact ih acc
        | false =>
            simp only [Bool.false_eq_true, if_false]
            rw [ih (acc.erase row),
              List.count_erase_of_ne (by intro h; exact hrr (h.symm ▸ rfl)) acc]

lemma remove_unsaved_rows_mem (rows : List ARow) (r : ARow) :
    (r.save = false → r ∉ remove_unsaved_rows rows) ∧
    (r.save = true → (r ∈ remove_unsaved_rows rows ↔ r ∈ rows)) := by
  constructor
  · intro hr hm
    have h := remove_loop_count_unsaved r hr rows rows
    unfold remove_unsaved_rows at hm
    rw [Nat.sub_self] at h
    rw [List.count_eq_zero] at h
    exact h hm
  · intro hr
    have h := remove_loop_count_saved r hr rows rows
    unfold remove_unsaved_rows
    constructor
    · intro hm
      have := List.count_pos_iff.mpr hm
      rw [h] at this
      exact List.count_pos_iff.mp this
    · intro hm
      have := List.count_pos_iff.mpr hm
      rw [← h] at this
      exact List.count_pos_iff.mp this


lemma save_one_map_index (rows rows' : List ARow) (d : String)
    (h : save_one rows d = .ok rows') :
    rows'.map ARow.index = rows.map ARow.index := by
  induction rows generalizing rows' with
  | nil => simp only [save_one, Except.ok.injEq] at h; subst h; rfl
  | cons r rest ih =>
      simp only [save_one] at h
      cases hint : pyInt? d with
      | none => simp only [hint] at h; exact Except.noConfusion h
      | some ri =>
          simp only [hint] at h
          by_cases hidx : r.index = ri
          · rw [if_pos hidx] at h
            simp only [Except.ok.injEq] at h
            subst h
            rfl
          · rw [if_neg hidx] at h
            cases hrec : save_one rest d with
            | error e => rw [hrec] at h; simp [Except.map] at h
            | ok rest' =>
                rw [hrec] at h
                simp only [Except.map, Except.ok.injEq] at h
                subst h
                simp only [List.map_cons, ih rest' hrec]

lemma save_one_mem (rows rows' : List ARow) (d : String) (r : ARow)
    (h : save_one rows d = .ok rows') (hm : r ∈ rows) :
    r ∈ rows' ∨ { r with save := true } ∈ rows' := by
  induction rows generalizing rows' with
  | nil => simp at hm
  | cons r0 rest ih =>
      simp only [save_one] at h
      cases hint : pyInt? d with
      | none => simp only [hint] at h; exact Except.noConfusion h
      | some ri =>
          simp only [hint] at h
          by_cases hidx : r0.index = ri
          · rw [if_pos hidx] at h
            simp only [Except.ok.injEq] at h
            subst h
            rcases List.mem_cons.mp hm with hm0 | hmr
            · subst hm0
              right
              exact List.mem_cons_self _ _
            · left
              exact List.mem_cons_of_mem _ hmr
          · rw [if_neg hidx] at h
            cases hrec : save_one rest d with
            | error e => rw [hrec] at h; simp [Except.map] at h
            | ok rest' =>
                rw [hrec] at h
                simp only [Except.map, Except.ok.injEq] at h
                subst h
                rcases List.mem_cons.mp hm with hm0 | hmr
                · subst hm0
                  left
                  exact List.mem_cons_self _ _
                · rcases ih rest' hrec hmr with h1 | h1
                  · left; exact List.mem_cons_of_mem _ h1
                  · right; exact List.mem_cons_of_mem _ h1

lemma save_one_marks (rows rows' : List ARow) (d : String) (ri : ℤ)
    (h : save_one rows d = .ok rows') (hint : pyInt? d = some ri)
    (hex : ∃ r ∈ rows, r.index = ri) :
    ∃ r' ∈ rows', r'.index = ri ∧ r'.save = true := by
  induction rows generalizing rows' with
  | nil => simp at hex
  | cons r0 rest ih =>
      simp only [save_one, hint] at h
      by_cases hidx : r0.index = ri
      · rw [if_pos hidx] at h
        simp only [Except.ok.injEq] at h
        subst h
        exact ⟨{ r0 with save := true }, List.mem_cons_self _ _, hidx, rfl⟩
      · rw [if_neg hidx] at h
        cases hrec : save_one rest d with
        | error e => rw [hrec] at h; simp [Except.map] at h
        | ok rest' =>
            rw [hrec] at h
            simp only [Except.map, Except.ok.injEq] at h
            subst h
            obtain ⟨r, hmr, hri⟩ := hex
            rcases List.mem_cons.mp hmr with hm0 | hmr2
            · subst hm0; exact absurd hri hidx
            · obtain ⟨r', hm', hp⟩ := ih rest' hrec ⟨r, hmr2, hri⟩
              exact ⟨r', List.mem_cons_of_mem _ hm', hp⟩

lemma saved_update_self (r : ARow) (h : r.save = true) : { r with save := true } = r := by
  cases r
  simp only at h
  simp [h]


lemma save_filled_loop_keeps_saved (rc : List (String × AugCell)) (data : AnswerData) :
    ∀ (rows rows' : List ARow), save_filled_loop rc data rows = (rows', .ok ()) →
      ∀ r ∈ rows, r.save = true → r ∈ rows' := by
  induction data with
  | nil =>
      intro rows rows' h r hm hs
      simp only [save_filled_loop, Prod.mk.injEq] at h
      rw [← h.1]
      exact hm
  | cons p rest ih =>
      obtain ⟨cid0, v0⟩ := p
      intro rows rows' h r hm hs
      simp only [save_filled_loop] at h
      cases hl : alookup rc cid0 with
      | none => simp only [hl, Prod.mk.injEq] at h; exact Except.noConfusion h.2
      | some c0 =>
          simp only [hl] at h
          by_cases hv : v0 ≠ ""
          · rw [if_pos hv] at h
            cases hso : save_one rows (decode_row_id cid0 c0.index) with
            | error e => simp only [hso, Prod.mk.injEq] at h; exact Except.noConfusion h.2
            | ok rows1 =>
                simp only [hso] at h
                have hm1 : r ∈ rows1 := by
                  rcases save_one_mem rows rows1 _ r hso hm with h1 | h1
                  · exact h1
                  · rw [saved_update_self r hs] at h1
                    exact h1
                exact ih rows1 rows' h r hm1 hs
          · rw [if_neg hv] at h
            exact ih rows rows' h r hm hs

lemma save_filled_loop_marks (rc : List (String × AugCell)) (data : AnswerData) :
    ∀ (rows rows' : List ARow) (cid v : String) (c : AugCell) (ri : ℤ),
      save_filled_loop rc data rows = (rows', .ok ()) →
      (cid, v) ∈ data → v ≠ "" → alookup rc cid = some c →
      pyInt? (decode_row_id cid c.index) = some ri →
      (∃ r ∈ rows, r.index = ri) →
      ∃ r' ∈ rows', r'.index = ri ∧ r'.save = true := by
  induction data with
  | nil => intro rows rows' cid v c ri h hmem; simp at hmem
  | cons p rest ih =>
      obtain ⟨cid0, v0⟩ := p
      intro rows rows' cid v c ri h hmem hv hal hint hex
      simp only [save_filled_loop] at h
      rcases List.mem_cons.mp hmem with hhead | htail
      · injection hhead with h1 h2
        subst h1
        subst h2
        rw [hal] at h
        simp only at h
        rw [if_pos hv] at h
        cases hso : save_one rows (decode_row_id cid c.index) with
        | error e => simp only [hso, Prod.mk.injEq] at h; exact Except.noConfusion h.2
        | ok rows1 =>
            simp only [hso] at h
            obtain ⟨r1, hm1, hi1, hs1⟩ := save_one_marks rows rows1 _ ri hso hint hex
            refine ⟨r1, ?_, hi1, hs1⟩
            exact save_filled_loop_keeps_saved rc rest rows1 rows' h r1 hm1 hs1
      · cases hl : alookup rc cid0 with
        | none => simp only [hl, Prod.mk.injEq] at h; exact Except.noConfusion h.2
        | some c0 =>
            simp only [hl] at h
            by_cases hv0 : v0 ≠ ""
            · rw [if_pos hv0] at h
              cases hso : save_one rows (decode_row_id cid0 c0.index) with
              | error e => simp only [hso, Prod.mk.injEq] at h; exact Except.noConfusion h.2
              | ok rows1 =>
                  simp only [hso] at h
                  have hex1 : ∃ r ∈ rows1, r.index = ri := by
                    obtain ⟨r, hmr, hir⟩ := hex
                    have hmap := save_one_map_index rows rows1 _ hso
                    have : ri ∈ rows1.map ARow.index := by
                      rw [hmap]
                      exact List.mem_map.mpr ⟨r, hmr, hir⟩
                    obtain ⟨r1, hm1, hi1⟩ := List.mem_map.mp this
                    exact ⟨r1, hm1, hi1⟩
                  exact ih rows1 rows' cid v c ri h htail hv hal hint hex1
            · rw [if_neg hv0] at h
              exact ih rows rows' cid v c ri h htail hv hal hint hex

/-- C5.  Lifecycle of pending extension rows: (a) a row never marked saved is
removed from the pending list by `remove_unsaved_rows` at the start of the
next render; (b) `remove_unsaved_rows` keeps exactly the saved rows; (c) a
check/save carrying a non-empty value for a cell of a pending row marks a row
with that row index saved; (d) a saved row survives the check/save pass — so
once saved it is never removed. -/
theorem extension_row_lifecycle (rc : List (String × AugCell)) (data : AnswerData)
    (rows rows' : List ARow)
    (hloop : save_filled_additional_rows rc rows data = (rows', .ok ())) :
    (∀ r : ARow, r.save = false → r ∉ remove_unsaved_rows rows) ∧
    (∀ r : ARow, r.save = true → (r ∈ remove_unsaved_rows rows ↔ r ∈ rows)) ∧
    (∀ (cid v : String) (c : AugCell) (ri : ℤ),
      (cid, v) ∈ data → v ≠ "" → alookup rc cid = some c →
      pyInt? (decode_row_id cid c.index) = some ri →
      (∃ r ∈ rows, r.index = ri) →
      ∃ r' ∈ rows', r'.index = ri ∧ r'.save = true) ∧
    (∀ r ∈ rows, r.save = true → r ∈ rows') := by
  refine ⟨?_, ?_, ?_, ?_⟩
  · intro r hr
    exact (remove_unsaved_rows_mem rows r).1 hr
  · intro r hr
    exact (remove_unsaved_rows_mem rows r).2 hr
  · intro cid v c ri hmem hv hal hint hex
    exact save_filled_loop_marks rc data rows rows' cid v c ri hloop hmem hv hal hint hex
  · intro r hm hs
    exact save_filled_loop_keeps_saved rc data rows rows' hloop r hm hs


lemma check_responses_no_right (rc : List (String × AugCell)) (data : AnswerData) :
    check_responses "no_right_answer" rc data
      = .ok (data.map (fun p => (p.1, Outcome.bool (decide (p.2 ≠ ""))))) := rfl

/-- C8.  In `no_right_answer` mode the per-cell outcome of each submitted
cell is exactly "the submitted value is non-empty", and `save_answers` scores
the completion map with `scorable_score_formula` — the same formula
`check_answers` applies to correctness outcomes in scorable mode. -/
theorem save_answers_no_right_answer_completion (s : XState) (data : AnswerData)
    (rcells : List (String × AugCell))
    (hmode : s.score_type = "no_right_answer")
    (hex : attempts_exhausted s = false)
    (hrc : response_cells_of s = some rcells)
    (hextend : s.extendable = false)
    (hne : data ≠ []) :
    (save_answers s data).1.answers_correct
      = .map (data.map (fun p => (p.1, Outcome.bool (decide (p.2 ≠ ""))))) ∧
    (save_answers s data).1.score
      = some (scorable_score_formula
          (data.map (fun p => (p.1, Outcome.bool (decide (p.2 ≠ "")))))
          s.maximum_score) := by
  have hresp : check_responses s.score_type rcells data
      = .ok (data.map (fun p => (p.1, Outcome.bool (decide (p.2 ≠ ""))))) := by
    rw [hmode]
    exact check_responses_no_right rcells data
  have hcs := check_and_save_ok s data rcells _ hex hrc hextend hresp
  have hall : ∀ p ∈ data.map (fun p => (p.1, Outcome.bool (decide (p.2 ≠ "")))),
      ∃ b, p.2 = Outcome.bool b := by
    intro p hp
    simp only [List.mem_map] at hp
    obtain ⟨q, hq, rfl⟩ := hp
    exact ⟨_, rfl⟩
  have hlen : (data.map (fun p => (p.1, Outcome.bool (decide (p.2 ≠ ""))))).length ≠ 0 := by
    simp only [List.length_map]
    intro hcon
    exact hne (List.eq_nil_of_length_eq_zero hcon)
  have hscore := score_expr_of_boolmap _ s.maximum_score hall hlen
  unfold save_answers
  rw [hcs]
  simp only [hmode, if_pos]
  rw [hscore]
  rw [submit_and_status_fst]
  exact ⟨rfl, rfl⟩

/-- The score the claim's formula predicts for scorable mode:
`(count of true outcomes / count of response cells in the grid) * maximum_score`. -/
def claim_scorable_score (numTrue numResponseCells : ℕ) (maxScore : ℚ) : ℚ :=
  (numTrue : ℚ) / (numResponseCells : ℚ) * maxScore

/-- The scorable-mode state used by the C3 counterexample: a grid with two
text response cells. -/
def c3_state : XState :=
  { content := some (["H1", "H2"], [⟨1, [⟨.text ["a"], 0⟩, ⟨.text ["b"], 1⟩]⟩]),
    column_widths := some [400, 400] }

/-- C3 (counterexample).  The grid of `c3_state` has two response cells; the
student submits one answer, which is correct.  The claim's formula yields
`(1 / 2) * 1 = 1/2`, but `check_answers` records score `1`: the code divides
by the number of submitted entries, not the response-cell count. -/
theorem scorable_denominator_counterexample :
    (response_cells_of c3_state).map List.length = some 2 ∧
    (check_answers c3_state [("cell_1_0", "a")]).1.answers_correct
      = .map [("cell_1_0", .bool true)] ∧
    (check_answers c3_state [("cell_1_0", "a")]).1.score = some 1 ∧
    claim_scorable_score 1 2 1 = 1 / 2 ∧
    (1 : ℚ) ≠ 1 / 2 := by
  refine ⟨by decide, by decide, ?_, by norm_num [claim_scorable_score], by norm_num⟩
  have h : (check_answers c3_state [("cell_1_0", "a")]).1.score
      = some (((1 : ℤ) : ℚ) * (1 : ℚ) / ((1 : ℕ) : ℚ)) := rfl
  rw [h]
  norm_num

/-- The response-cell index of `c3_state` (evaluated form). -/
def c3_rcells : List (String × AugCell) := (response_cells_of c3_state).getD []

/-- Witness for the amended C3 at the concrete state `c3_state`. -/
theorem check_answers_scorable_uses_submitted_count_witness :
    c3_state.score_type = "scorable" ∧
    attempts_exhausted c3_state = false ∧
    response_cells_of c3_state = some c3_rcells ∧
    c3_state.extendable = false ∧
    ([("cell_1_0", "a")] : AnswerData) ≠ [] ∧
    (∀ p ∈ ([("cell_1_0", "a")] : AnswerData), (alookup c3_rcells p.1).isSome) ∧
    ((check_answers c3_state [("cell_1_0", "a")]).1.answers_correct
      = .map (([("cell_1_0", "a")] : AnswerData).map
          (fun p => (p.1, scorable_outcome c3_rcells p))) ∧
    (check_answers c3_state [("cell_1_0", "a")]).1.score
      = some (scorable_score_formula
          (([("cell_1_0", "a")] : AnswerData).map
            (fun p => (p.1, scorable_outcome c3_rcells p)))
          c3_state.maximum_score)) :=
  ⟨rfl, by decide, rfl, rfl, by decide, by decide,
    check_answers_scorable_uses_submitted_count c3_state [("cell_1_0", "a")] c3_rcells
      rfl (by decide) rfl rfl (by decide) (by decide)⟩

/-- The `no_right_answer` state used by the C8 witness. -/
def c8_state : XState :=
  { content := some (["H1", "H2"], [⟨1, [⟨.static (.int 1), 0⟩, ⟨.text ["a"], 1⟩]⟩]),
    column_widths := some [400, 400],
    score_type := "no_right_answer" }

/-- The response-cell index of `c8_state` (evaluated form). -/
def c8_rcells : List (String × AugCell) := (response_cells_of c8_state).getD []

/-- Witness for C8 at the concrete state `c8_state`: one non-empty and one
empty submission. -/
theorem save_answers_no_right_answer_completion_witness :
    c8_state.score_type = "no_right_answer" ∧
    attempts_exhausted c8_state = false ∧
    response_cells_of c8_state = some c8_rcells ∧
    c8_state.extendable = false ∧
    ([("cell_1_1", "x"), ("cell_1_0", "")] : AnswerData) ≠ [] ∧
    ((save_answers c8_state [("cell_1_1", "x"), ("cell_1_0", "")]).1.answers_correct
      = .map (([("cell_1_1", "x"), ("cell_1_0", "")] : AnswerData).map
          (fun p => (p.1, Outcome.bool (decide (p.2 ≠ ""))))) ∧
    (save_answers c8_state [("cell_1_1", "x"), ("cell_1_0", "")]).1.score
      = some (scorable_score_formula
          (([("cell_1_1", "x"), ("cell_1_0", "")] : AnswerData).map
            (fun p => (p.1, Outcome.bool (decide (p.2 ≠ "")))))
          c8_state.maximum_score)) :=
  ⟨rfl, by decide, rfl, rfl, by decide,
    save_answers_no_right_answer_completion c8_state
      [("cell_1_1", "x"), ("cell_1_0", "")] c8_rcells rfl (by decide) rfl rfl (by decide)⟩

/-- The response-cell index used by the C5 witness: one text response cell in
row 4, column 1. -/
def c5_rcells : List (String × AugCell) :=
  [("cell_4_1", { kind := .text [""], index := 1, id := "cell_4_1",
                  classes := "active", value := Option.none, height := Option.none })]

/-- Witness for C5: a pending row with index 4 receives the non-empty value
`"x"` in cell `cell_4_1`; it is marked saved and survives; before that an
unsaved row is dropped by the render pass. -/
theorem extension_row_lifecycle_witness :
    save_filled_additional_rows c5_rcells [⟨4, 5, false⟩] [("cell_4_1", "x")]
      = ([⟨4, 5, true⟩], .ok ()) ∧
    (⟨4, 5, false⟩ : ARow) ∉ remove_unsaved_rows [⟨4, 5, false⟩] ∧
    ((⟨4, 5, true⟩ : ARow) ∈ remove_unsaved_rows [⟨4, 5, true⟩] ↔
      (⟨4, 5, true⟩ : ARow) ∈ [(⟨4, 5, true⟩ : ARow)]) ∧
    (∃ r' ∈ [(⟨4, 5, true⟩ : ARow)], r'.index = 4 ∧ r'.save = true) ∧
    (⟨4, 5, true⟩ : ARow) ∈ [(⟨4, 5, true⟩ : ARow)] :=
  ⟨rfl,
    (extension_row_lifecycle c5_rcells [("cell_4_1", "x")] [⟨4, 5, false⟩] [⟨4, 5, true⟩]
      rfl).1 ⟨4, 5, false⟩ (by decide),
    (extension_row_lifecycle c5_rcells [("cell_4_1", "x")] [⟨4, 5, true⟩] [⟨4, 5, true⟩]
      rfl).2.1 ⟨4, 5, true⟩ (by decide),
    (extension_row_lifecycle c5_rcells [("cell_4_1", "x")] [⟨4, 5, false⟩] [⟨4, 5, true⟩]
      rfl).2.2.1 "cell_4_1" "x"
      { kind := .text [""], index := 1, id := "cell_4_1", classes := "active",
        value := Option.none, height := Option.none } 4
      (by decide) (by decide) (by decide) (by decide) ⟨⟨4, 5, false⟩, by decide, by decide⟩,
    (extension_row_lifecycle c5_rcells [("cell_4_1", "x")] [⟨4, 5, true⟩] [⟨4, 5, true⟩]
      rfl).2.2.2 ⟨4, 5, true⟩ (by decide) (by decide)⟩

end ActiveTable
